import Mathlib

/-!
Verification development for the `nexus-api-wrapper` repository.

The repository ships two parallel implementations of the class
`UniversalAPIWrapper`: a JavaScript one (`unnamed/part_000`, referred to
below as the JS pipeline, functions suffixed with nothing or `Js`) and a
TypeScript one (`src/app.ts`, the TS pipeline, functions suffixed `Ts`).
Both are embedded here.  Values crossing the wrapper are modelled by a
JSON-like value type `JValue` (with an `undef` constructor for JavaScript
`undefined`); the HTTP transport is modelled by a list of per-call
outcomes consumed in order; the mutable instance state (auth credentials,
the shared memory cache, the clock) is threaded explicitly.
-/

/-- JavaScript values as far as the wrapper observes them: JSON values
plus `undefined`.  An `obj` field list is the own-property iteration
order of the JS object; for the non-numeric string keys used by this
code base that is key insertion order. -/
inductive JValue where
  | undef : JValue
  | null : JValue
  | bool : Bool → JValue
  | num : Int → JValue
  | str : String → JValue
  | arr : List JValue → JValue
  | obj : List (String × JValue) → JValue
deriving Repr, BEq

/-- JavaScript truthiness of a `JValue` (`undefined`, `null`, `false`,
`0` and the empty string are falsy; every object and array is truthy). -/
def jsTruthy : JValue → Bool
  | JValue.undef => false
  | JValue.null => false
  | JValue.bool b => b
  | JValue.num n => n != 0
  | JValue.str s => !s.isEmpty
  | JValue.arr _ => true
  | JValue.obj _ => true

/-- JavaScript truthiness of an optional string credential: absent and
the empty string are both falsy. -/
def truthyStr (s : String) : Bool := !s.isEmpty

/-- Whether a `JValue` is a string (the `typeof data === "string"` test). -/
def isString : JValue → Bool
  | JValue.str _ => true
  | _ => false

/-- Whether a `JValue` is `undefined`. -/
def isUndef : JValue → Bool
  | JValue.undef => true
  | _ => false

/-- JavaScript property read `v.k` for the values reachable here.  Only
objects carry own string properties; reading a property of any other
non-null value yields `undefined`.  Reads on `null`/`undefined` throw and
are handled separately by the caller. -/
def getField (v : JValue) (k : String) : JValue :=
  match v with
  | JValue.obj fs => (fs.lookup k).getD JValue.undef
  | _ => JValue.undef

/-- Lower-case hexadecimal digit, as emitted by `JSON.stringify` in
`\uXXXX` escapes. -/
def hexDigitChar (n : Nat) : Char :=
  if n < 10 then Char.ofNat (48 + n) else Char.ofNat (87 + n)

/-- Four-digit hexadecimal rendering of a code point below 0x10000. -/
def hex4 (n : Nat) : String :=
  String.mk [hexDigitChar (n / 4096 % 16), hexDigitChar (n / 256 % 16),
             hexDigitChar (n / 16 % 16), hexDigitChar (n % 16)]

/-- String-character escaping performed by `JSON.stringify`. -/
def escapeChar (c : Char) : String :=
  if c = '"' then "\\\""
  else if c = '\\' then "\\\\"
  else if c = '\n' then "\\n"
  else if c = '\r' then "\\r"
  else if c = '\t' then "\\t"
  else if c = '\x08' then "\\b"
  else if c = '\x0c' then "\\f"
  else if c.toNat < 32 then "\\u" ++ hex4 c.toNat
  else String.singleton c

/-- Escape every character of a list in order. -/
def escapeList : List Char → String
  | [] => ""
  | c :: rest => escapeChar c ++ escapeList rest

/-- A double-quoted JSON string literal for `s`. -/
def quoteStr (s : String) : String := "\"" ++ escapeList s.toList ++ "\""

mutual

/-- Embedding of `JSON.stringify` on the values reachable in this code
base.  Object keys are emitted in iteration (insertion) order — this is
the behaviour the cache-key claims hinge on.  Fields holding `undefined`
are dropped, `undefined` array elements render as `null`, and a
top-level `undefined` renders as the text a template literal would show
for it. -/
def stringifyJ : JValue → String
  | JValue.undef => "undefined"
  | JValue.null => "null"
  | JValue.bool true => "true"
  | JValue.bool false => "false"
  | JValue.num n => toString n
  | JValue.str s => quoteStr s
  | JValue.arr xs => "[" ++ stringifyElems xs ++ "]"
  | JValue.obj fs => "\x7b" ++ stringifyFields fs ++ "\x7d"

/-- Comma-separated serialization of array elements. -/
def stringifyElems : List JValue → String
  | [] => ""
  | [x] => if isUndef x then "null" else stringifyJ x
  | x :: xs =>
    (if isUndef x then "null" else stringifyJ x) ++ "," ++ stringifyElems xs

/-- Comma-separated serialization of object fields, skipping fields whose
value is `undefined` exactly as `JSON.stringify` does. -/
def stringifyFields : List (String × JValue) → String
  | [] => ""
  | (k, v) :: rest =>
    if isUndef v then stringifyFields rest
    else
      let item := quoteStr k ++ ":" ++ stringifyJ v
      let r := stringifyFields rest
      if r = "" then item else item ++ "," ++ r

end

/-- Hexadecimal digit value of a character, if any. -/
def hexVal (c : Char) : Option Nat :=
  if '0' ≤ c ∧ c ≤ '9' then some (c.toNat - 48)
  else if 'a' ≤ c ∧ c ≤ 'f' then some (c.toNat - 87)
  else if 'A' ≤ c ∧ c ≤ 'F' then some (c.toNat - 55)
  else none

/-- Skip JSON whitespace (space, tab, line feed, carriage return). -/
def skipWs : List Char → List Char
  | [] => []
  | c :: rest =>
    if c = ' ' ∨ c = '\t' ∨ c = '\n' ∨ c = '\r' then skipWs rest else c :: rest

/-- Decode the body of a JSON string literal (the opening quote already
consumed), returning the decoded text and the remaining input.  The fuel
argument only bounds recursion; callers supply the input length, which
always suffices since every step consumes at least one character.  Valid
surrogate-pair escapes are combined into one code point; lone surrogates,
which Lean strings cannot hold, decode to U+FFFD. -/
def parseStrCore : Nat → List Char → Option (String × List Char)
  | _, [] => none
  | _, '"' :: rest => some ("", rest)
  | 0, _ => none
  | fuel + 1, cs =>
    match cs with
    | '\\' :: esc =>
      match esc with
      | 'n' :: rs => (parseStrCore fuel rs).map (fun p => ("\n" ++ p.1, p.2))
      | 't' :: rs => (parseStrCore fuel rs).map (fun p => ("\t" ++ p.1, p.2))
      | 'r' :: rs => (parseStrCore fuel rs).map (fun p => ("\r" ++ p.1, p.2))
      | 'b' :: rs => (parseStrCore fuel rs).map (fun p => ("\x08" ++ p.1, p.2))
      | 'f' :: rs => (parseStrCore fuel rs).map (fun p => ("\x0c" ++ p.1, p.2))
      | '"' :: rs => (parseStrCore fuel rs).map (fun p => ("\"" ++ p.1, p.2))
      | '\\' :: rs => (parseStrCore fuel rs).map (fun p => ("\\" ++ p.1, p.2))
      | '/' :: rs => (parseStrCore fuel rs).map (fun p => ("/" ++ p.1, p.2))
      | 'u' :: a :: b :: c :: d :: rs =>
        match hexVal a, hexVal b, hexVal c, hexVal d with
        | some ha, some hb, some hc, some hd =>
          let n := ha * 4096 + hb * 256 + hc * 16 + hd
          if 0xD800 ≤ n ∧ n ≤ 0xDBFF then
            match rs with
            | '\\' :: 'u' :: a2 :: b2 :: c2 :: d2 :: rs2 =>
              match hexVal a2, hexVal b2, hexVal c2, hexVal d2 with
              | some ha2, some hb2, some hc2, some hd2 =>
                let n2 := ha2 * 4096 + hb2 * 256 + hc2 * 16 + hd2
                if 0xDC00 ≤ n2 ∧ n2 ≤ 0xDFFF then
                  let code := 0x10000 + (n - 0xD800) * 0x400 + (n2 - 0xDC00)
                  (parseStrCore fuel rs2).map
                    (fun p => (String.singleton (Char.ofNat code) ++ p.1, p.2))
                else
                  (parseStrCore fuel rs).map
                    (fun p => (String.singleton (Char.ofNat 0xFFFD) ++ p.1, p.2))
              | _, _, _, _ => none
            | _ =>
              (parseStrCore fuel rs).map
                (fun p => (String.singleton (Char.ofNat 0xFFFD) ++ p.1, p.2))
          else if 0xDC00 ≤ n ∧ n ≤ 0xDFFF then
            (parseStrCore fuel rs).map
              (fun p => (String.singleton (Char.ofNat 0xFFFD) ++ p.1, p.2))
          else
            (parseStrCore fuel rs).map
              (fun p => (String.singleton (Char.ofNat n) ++ p.1, p.2))
        | _, _, _, _ => none
      | _ => none
    | c :: rest =>
      if c.toNat < 32 then none
      else (parseStrCore fuel rest).map (fun p => (String.singleton c ++ p.1, p.2))
    | [] => none

/-- Decode a JSON string-literal body with enough fuel for the input. -/
def parseStrBody (cs : List Char) : Option (String × List Char) :=
  parseStrCore cs.length cs

/-- Take leading decimal digits. -/
def takeDigits : List Char → (List Char × List Char)
  | [] => ([], [])
  | c :: rest =>
    if c.isDigit then
      let p := takeDigits rest
      (c :: p.1, p.2)
    else ([], c :: rest)

/-- Digits to a natural number (most significant first). -/
def digitsToNat (acc : Nat) : List Char → Nat
  | [] => acc
  | c :: rest => digitsToNat (acc * 10 + (c.toNat - 48)) rest

/-- Decode a JSON number token.  Numbers are modelled as integers, so a
fractional part or exponent — which would need a floating-point model —
is treated as a decode failure; no value handled by the claims carries
one.  The JSON grammar restrictions (no leading zeros, at least one
digit) are enforced. -/
def parseNumTok : List Char → Option (JValue × List Char)
  | '-' :: cs =>
    match takeDigits cs with
    | ([], _) => none
    | ('0' :: _ :: _, _) => none
    | (ds, rest) =>
      match rest with
      | '.' :: _ => none
      | 'e' :: _ => none
      | 'E' :: _ => none
      | _ => some (JValue.num (-(digitsToNat 0 ds : Int)), rest)
  | cs =>
    match takeDigits cs with
    | ([], _) => none
    | ('0' :: _ :: _, _) => none
    | (ds, rest) =>
      match rest with
      | '.' :: _ => none
      | 'e' :: _ => none
      | 'E' :: _ => none
      | _ => some (JValue.num (digitsToNat 0 ds : Int), rest)

mutual

/-- Fuel-indexed decoder for a single JSON value.  `jsonParse` supplies
ample fuel, so the fuel never runs out on inputs the wrapper sees. -/
def parseVal : Nat → List Char → Option (JValue × List Char)
  | 0, _ => none
  | fuel + 1, cs =>
    match skipWs cs with
    | [] => none
    | c :: rest =>
      if c = 'n' then
        match rest with
        | 'u' :: 'l' :: 'l' :: rs => some (JValue.null, rs)
        | _ => none
      else if c = 't' then
        match rest with
        | 'r' :: 'u' :: 'e' :: rs => some (JValue.bool true, rs)
        | _ => none
      else if c = 'f' then
        match rest with
        | 'a' :: 'l' :: 's' :: 'e' :: rs => some (JValue.bool false, rs)
        | _ => none
      else if c = '"' then
        (parseStrBody rest).map (fun p => (JValue.str p.1, p.2))
      else if c = '[' then
        match skipWs rest with
        | ']' :: rs => some (JValue.arr [], rs)
        | rs => (parseElems fuel rs).map (fun p => (JValue.arr p.1, p.2))
      else if c = '\x7b' then
        match skipWs rest with
        | '\x7d' :: rs => some (JValue.obj [], rs)
        | rs => (parseFields fuel rs).map (fun p => (JValue.obj p.1, p.2))
      else
        parseNumTok (c :: rest)

/-- Decode one or more comma-separated array elements up to `]`. -/
def parseElems : Nat → List Char → Option (List JValue × List Char)
  | 0, _ => none
  | fuel + 1, cs =>
    match parseVal fuel cs with
    | none => none
    | some (v, rest) =>
      match skipWs rest with
      | ',' :: rs =>
        (parseElems fuel rs).map (fun p => (v :: p.1, p.2))
      | ']' :: rs => some ([v], rs)
      | _ => none

/-- Decode one or more comma-separated object members up to the closing
brace. -/
def parseFields : Nat → List Char → Option (List (String × JValue) × List Char)
  | 0, _ => none
  | fuel + 1, cs =>
    match skipWs cs with
    | '"' :: rs =>
      match parseStrBody rs with
      | none => none
      | some (k, rest) =>
        match skipWs rest with
        | ':' :: rs2 =>
          match parseVal fuel rs2 with
          | none => none
          | some (v, rest2) =>
            match skipWs rest2 with
            | ',' :: rs3 =>
              (parseFields fuel rs3).map (fun p => ((k, v) :: p.1, p.2))
            | '\x7d' :: rs3 => some ([(k, v)], rs3)
            | _ => none
        | _ => none
    | _ => none

end

/-- Embedding of `JSON.parse`: decode the whole input, allowing trailing
whitespace only; `none` models the `SyntaxError` the real function
throws. -/
def jsonParse (s : String) : Option JValue :=
  match parseVal (2 * s.length + 2) s.toList with
  | some (v, rest) => if skipWs rest = [] then some v else none
  | none => none

/-- UTF-8 bytes of one character (as natural numbers below 256). -/
def utf8Bytes (c : Char) : List Nat :=
  let n := c.toNat
  if n < 0x80 then [n]
  else if n < 0x800 then [0xC0 + n / 64, 0x80 + n % 64]
  else if n < 0x10000 then
    [0xE0 + n / 4096, 0x80 + n / 64 % 64, 0x80 + n % 64]
  else
    [0xF0 + n / 262144, 0x80 + n / 4096 % 64, 0x80 + n / 64 % 64, 0x80 + n % 64]

/-- UTF-8 byte sequence of a string (what `Buffer.from(s)` holds). -/
def strBytes (s : String) : List Nat := (s.toList.map utf8Bytes).flatten

/-- The standard base64 alphabet. -/
def b64Alphabet : String :=
  "ABCDEFGHIJKLMNOPQRSTUVWXYZabcdefghijklmnopqrstuvwxyz0123456789+/"

/-- Character `n` of the base64 alphabet. -/
def b64Char (n : Nat) : Char := b64Alphabet.toList.getD n 'A'

/-- Base64-encode a byte list three bytes at a time with `=` padding. -/
def b64Chunks : List Nat → String
  | [] => ""
  | [a] => String.mk [b64Char (a / 4), b64Char (a % 4 * 16), '=', '=']
  | [a, b] =>
    String.mk [b64Char (a / 4), b64Char (a % 4 * 16 + b / 16),
               b64Char (b % 16 * 4), '=']
  | a :: b :: c :: rest =>
    String.mk [b64Char (a / 4), b64Char (a % 4 * 16 + b / 16),
               b64Char (b % 16 * 4 + c / 64), b64Char (c % 64)] ++ b64Chunks rest

/-- Embedding of `Buffer.from(s).toString("base64")`. -/
def base64 (s : String) : String := b64Chunks (strBytes s)

/-- Set a header on a JavaScript-object header map: an existing key keeps
its position and gets the new value, a new key is appended. -/
def setH : List (String × String) → String → String → List (String × String)
  | [], k, v => [(k, v)]
  | (k0, v0) :: rest, k, v =>
    if k0 = k then (k, v) :: rest else (k0, v0) :: setH rest k v

/-- Read a header value. -/
def getH (hs : List (String × String)) (k : String) : Option String :=
  (hs.find? (fun p => p.1 == k)).map (fun p => p.2)

/-- The `basicAuth` credential pair. -/
structure BasicAuth where
  username : String
  password : String
deriving Repr

/-- The `auth` configuration bundle.  String credentials model both the
absent and the empty-string case with `""`, since every guard in the
source tests plain JavaScript truthiness and treats the two alike. -/
structure Auth where
  apiKey : String := ""
  bearerToken : String := ""
  basicAuth : Option BasicAuth := none
  refreshToken : String := ""
deriving Repr

/-- Embedding of `getAuthHeaders` (identical in both implementations):
copy the existing headers, then add `X-API-Key` when an apiKey is
configured, then `Authorization: Bearer ...` when a bearer token is
configured, then `Authorization: Basic base64(username:password)` when
basic credentials are configured — the later assignment to the same
`Authorization` key overwrites the earlier one. -/
def getAuthHeaders (auth : Auth) (existingHeaders : List (String × String)) :
    List (String × String) :=
  let headers := existingHeaders
  let headers :=
    if truthyStr auth.apiKey then setH headers "X-API-Key" auth.apiKey
    else headers
  let headers :=
    if truthyStr auth.bearerToken then
      setH headers "Authorization" ("Bearer " ++ auth.bearerToken)
    else headers
  match auth.basicAuth with
  | some b =>
    setH headers "Authorization"
      ("Basic " ++ base64 (b.username ++ ":" ++ b.password))
  | none => headers

/-- The resolved wrapper configuration (the constructor defaults already
applied).  `auth` is kept in the mutable pipeline state instead, because
the 401 path assigns `config.auth.bearerToken` in place. -/
structure WrapperConfig where
  baseURL : String := ""
  timeout : Nat := 30000
  retryAttempts : Nat := 3
  cacheEnabled : Bool := false
  cacheDuration : Nat := 300000
deriving Repr

/-- One entry of the shared `memory-cache` store. -/
structure CacheEntry where
  key : String
  value : JValue
  expireAt : Nat
deriving Repr

/-- The mutable state visible to the pipeline: the auth bundle (its
`bearerToken` is reassigned on refresh), the shared cache, the current
time in milliseconds, and a ghost counter of refresh-hook invocations
used to state the exactly-one-refresh claims. -/
structure PState where
  auth : Auth
  cache : List CacheEntry := []
  now : Nat := 0
  refreshCalls : Nat := 0
deriving Repr

/-- Embedding of `memoryCache.get`: the stored value when the key is
present and unexpired, JavaScript `null` otherwise. -/
def cacheGet (cache : List CacheEntry) (key : String) (now : Nat) : JValue :=
  match cache.find? (fun e => e.key == key) with
  | some e => if now < e.expireAt then e.value else JValue.null
  | none => JValue.null

/-- Embedding of `memoryCache.put key v duration`: replaces any previous
entry for the key and sets its expiry `duration` ms from now. -/
def cachePut (cache : List CacheEntry) (key : String) (v : JValue)
    (expireAt : Nat) : List CacheEntry :=
  ⟨key, v, expireAt⟩ :: cache.filter (fun e => e.key != key)

/-- Embedding of `parseResponse` (identical in both implementations): a
string is JSON-decoded, with the raw string returned unchanged when the
decode fails; any non-string input is returned as-is.  The function is
total: the decode failure that would throw in `JSON.parse` is caught. -/
def parseResponse (data : JValue) : JValue :=
  match data with
  | JValue.str s => (jsonParse s).getD (JValue.str s)
  | d => d

/-- The `config.params || {}` fallback: a falsy value becomes `{}`. -/
def orEmptyObj (v : JValue) : JValue :=
  if jsTruthy v then v else JValue.obj []

/-- Embedding of `getCacheKey` (identical in both implementations): the
template literal `method-url-stringify(params||{})-stringify(data||{})`. -/
def getCacheKey (method url : String) (params data : JValue) : String :=
  method ++ "-" ++ url ++ "-" ++ stringifyJ (orEmptyObj params) ++ "-" ++
    stringifyJ (orEmptyObj data)

/-- The request-relevant fields of an axios config object. -/
structure ReqConfig where
  method : String
  url : String
  params : JValue := JValue.undef
  data : JValue := JValue.undef
  headers : List (String × String) := []
deriving Repr

/-- The options bag passed to `request` (no `method`/`url` keys, so the
spread `{ method, url, ...options }` cannot override those). -/
structure ReqOptions where
  params : JValue := JValue.undef
  data : JValue := JValue.undef
  headers : List (String × String) := []
deriving Repr

/-- An HTTP response as the error path sees it (`error.response`). -/
structure AxResponse where
  status : Nat
  data : JValue
deriving Repr, BEq

/-- Errors the JS pipeline can surface: the normalized object literal
thrown by `handleError` for HTTP errors, a raw transport error rethrown
unchanged when no HTTP response is attached, the TypeError raised by
reading `.message` off a null/undefined body, and whatever a failing
refresh hook rejects with. -/
inductive JsErr where
  | normalized (status : Nat) (message : JValue) (data : JValue)
  | raw (message : String)
  | typeError (message : String)
  | hookError (message : String)
deriving Repr, BEq

/-- Outcome of one raw transport submission, supplied externally: a 2xx
response carrying a body, a non-2xx response (HTTP error with status,
body and generic axios message), or a network/timeout failure with no
response attached. -/
inductive CallOutcome where
  | success (status : Nat) (data : JValue)
  | httpError (status : Nat) (data : JValue) (errMessage : String)
  | networkError (errMessage : String)
deriving Repr

/-- The `(status, message, data)` object thrown by the JS `handleError`
for an HTTP error outside the refresh path: the message is the response
body's `message` field when that is truthy, else the generic error
message; reading `.message` off a `null` or `undefined` body itself
throws a TypeError, which then propagates instead. -/
def normalizeHttpError (status : Nat) (respData : JValue) (errMessage : String) :
    JsErr :=
  match respData with
  | JValue.null => JsErr.typeError "cannot read message of null"
  | JValue.undef => JsErr.typeError "cannot read message of undefined"
  | d =>
    let m := getField d "message"
    JsErr.normalized status (if jsTruthy m then m else JValue.str errMessage) d

/-- The stubbed refresh hook of the source, which always succeeds with a
fixed token.  The pipeline functions take the hook as a parameter so the
behaviour of a pluggable failing hook is statable; the source wiring is
recovered by passing this value. -/
def getNewAccessToken : Except JsErr String := Except.ok "new-access-token"

/-- Embedding of one `this.axiosInstance(config)` invocation of the JS
implementation, interceptors included: the request interceptor merges
auth headers into the config; a success runs `handleResponse` (parse,
cache when enabled under the key of the submitted config, and return the
parsed body); an HTTP 401 with a refresh token configured runs
`refreshTokenAndRetry` (invoke the hook, store the token in
`auth.bearerToken`, rewrite the `Authorization` header of this very
config and resubmit it, a hook failure rethrowing as-is); any other HTTP
error is normalized and thrown; an error without a response is rethrown
unchanged.  Each recursive resubmission consumes the next outcome of the
transport trace. -/
def axiosCall (cfg : WrapperConfig) (hook : Except JsErr String) :
    ReqConfig → PState → List CallOutcome →
    Except JsErr JValue × PState × List CallOutcome
  | _, st, [] => (Except.error (JsErr.raw "transport trace exhausted"), st, [])
  | req, st, o :: rest =>
    let req2 : ReqConfig := { req with headers := getAuthHeaders st.auth req.headers }
    match o with
    | CallOutcome.success _ respData =>
      let data := parseResponse respData
      let key := getCacheKey req2.method req2.url req2.params req2.data
      let newCache := cachePut st.cache key data (st.now + cfg.cacheDuration)
      let st2 := if cfg.cacheEnabled then { st with cache := newCache } else st
      (Except.ok data, st2, rest)
    | CallOutcome.httpError status respData errMessage =>
      if status == 401 && truthyStr st.auth.refreshToken then
        match hook with
        | Except.ok newToken =>
          let st2 := { st with
            auth := { st.auth with bearerToken := newToken },
            refreshCalls := st.refreshCalls + 1 }
          let req3 := { req2 with
            headers := setH req2.headers "Authorization" ("Bearer " ++ newToken) }
          axiosCall cfg hook req3 st2 rest
        | Except.error e =>
          (Except.error e, { st with refreshCalls := st.refreshCalls + 1 }, rest)
      else
        (Except.error (normalizeHttpError status respData errMessage), st, rest)
    | CallOutcome.networkError errMessage =>
      (Except.error (JsErr.raw errMessage), st, rest)

/-- The retry loop of `request` (JS implementation), indexed by the
number of loop iterations still allowed (`retryAttempts - attempts`).
A success returns at once; a failure when this was the last allowed
iteration rethrows the error, otherwise the loop waits the linear
backoff (which changes no modelled state) and tries again.  When the
while-guard is exhausted the async function falls through and resolves
`undefined`. -/
def requestLoop (cfg : WrapperConfig) (hook : Except JsErr String)
    (req : ReqConfig) :
    PState → List CallOutcome → Nat →
    Except JsErr JValue × PState × List CallOutcome
  | st, trace, 0 => (Except.ok JValue.undef, st, trace)
  | st, trace, k + 1 =>
    match axiosCall cfg hook req st trace with
    | (Except.ok v, st2, rest) => (Except.ok v, st2, rest)
    | (Except.error e, st2, rest) =>
      if k = 0 then (Except.error e, st2, rest)
      else requestLoop cfg hook req st2 rest k

/-- The method defaulting of the JS `request`: an absent method becomes
`POST` when a truthy body is present, else `GET`. -/
def effectiveMethod (method : String) (opts : ReqOptions) : String :=
  if method = "" then (if jsTruthy opts.data then "POST" else "GET") else method

/-- The cache key `request` computes for a call, after method
defaulting. -/
def requestKey (method endpoint : String) (opts : ReqOptions) : String :=
  getCacheKey (effectiveMethod method opts) endpoint opts.params opts.data

/-- Embedding of the JS `request(method, endpoint, options)`: default the
method, compute the cache key, and when caching is enabled return a
truthy cached value immediately; otherwise run the retry loop with
`retryAttempts` iterations allowed. -/
def request (cfg : WrapperConfig) (hook : Except JsErr String)
    (method endpoint : String) (opts : ReqOptions)
    (st : PState) (trace : List CallOutcome) :
    Except JsErr JValue × PState × List CallOutcome :=
  let m := effectiveMethod method opts
  let cacheKey := requestKey method endpoint opts
  let run := fun () =>
    requestLoop cfg hook
      { method := m, url := endpoint, params := opts.params,
        data := opts.data, headers := opts.headers }
      st trace cfg.retryAttempts
  if cfg.cacheEnabled then
    let cachedData := cacheGet st.cache cacheKey st.now
    if jsTruthy cachedData then (Except.ok cachedData, st, trace)
    else run ()
  else run ()

/-- Embedding of the facade method `get(endpoint, params = {})` of the JS
implementation. -/
def get (cfg : WrapperConfig) (hook : Except JsErr String)
    (endpoint : String) (params : JValue)
    (st : PState) (trace : List CallOutcome) :
    Except JsErr JValue × PState × List CallOutcome :=
  request cfg hook "GET" endpoint { params := params } st trace

/-- The four user callbacks accepted by `connectWebSocket`. -/
structure WebSocketOptions (A : Type) where
  onOpen : Option (Unit → A) := none
  onMessage : Option (JValue → A) := none
  onError : Option (String → A) := none
  onClose : Option (Unit → A) := none

/-- Lifecycle events emitted by the WebSocket transport handle.  A text
frame is modelled as a string payload. -/
inductive WsEvent where
  | opened
  | message (data : JValue)
  | errored (message : String)
  | closed

/-- Embedding of the event wiring installed by `connectWebSocket`
(identical in both implementations): each event dispatches to the
corresponding optional callback, and a message payload is passed through
`parseResponse` before delivery. -/
def connectWebSocketHandler {A : Type} (options : WebSocketOptions A) :
    WsEvent → Option A
  | WsEvent.opened => options.onOpen.map (fun f => f ())
  | WsEvent.message data => options.onMessage.map (fun f => f (parseResponse data))
  | WsEvent.errored e => options.onError.map (fun f => f e)
  | WsEvent.closed => options.onClose.map (fun f => f ())

/-- An axios error object as the TS implementation rethrows it: the
generic message plus the attached HTTP response, if any.  The TS
`handleError` never builds a `(status, message, data)` object — outside
the 401 refresh path it rethrows this value unchanged. -/
structure AxiosError where
  message : String
  response : Option AxResponse
deriving Repr, BEq

/-- The raw error corresponding to a failing transport outcome under the
TS implementation. -/
def outcomeAxiosError : CallOutcome → AxiosError
  | CallOutcome.success _ _ => { message := "", response := none }
  | CallOutcome.httpError status data errMessage =>
    { message := errMessage, response := some { status := status, data := data } }
  | CallOutcome.networkError errMessage =>
    { message := errMessage, response := none }

/-- What a TS `request` call resolves with: a fresh transport call
resolves with the full `AxiosResponse` object (the TS `handleResponse`
returns `response`, not the parsed body), while a cache hit resolves
with the bare parsed value stored by an earlier response.  The two
shapes differ — that inconsistency is exactly what claim C1 is about. -/
inductive TsReturn where
  | cachedValue (v : JValue)
  | response (r : AxResponse)
deriving Repr, BEq

/-- The stubbed refresh hook of the TS implementation. -/
def getNewAccessTokenTs : Except AxiosError String := Except.ok "new-access-token"

/-- Embedding of one `this.axiosInstance(config)` invocation of the TS
implementation: same interceptor wiring as the JS one, but
`handleResponse` parses and caches the body and then returns the
*response object itself*, and `handleError` rethrows every non-401-refresh
error unchanged (no `(status, message, data)` normalization). -/
def axiosCallTs (cfg : WrapperConfig) (hook : Except AxiosError String) :
    ReqConfig → PState → List CallOutcome →
    Except AxiosError AxResponse × PState × List CallOutcome
  | _, st, [] =>
    (Except.error { message := "transport trace exhausted", response := none }, st, [])
  | req, st, o :: rest =>
    let req2 : ReqConfig := { req with headers := getAuthHeaders st.auth req.headers }
    match o with
    | CallOutcome.success status respData =>
      let data := parseResponse respData
      let key := getCacheKey req2.method req2.url req2.params req2.data
      let newCache := cachePut st.cache key data (st.now + cfg.cacheDuration)
      let st2 := if cfg.cacheEnabled then { st with cache := newCache } else st
      (Except.ok { status := status, data := respData }, st2, rest)
    | CallOutcome.httpError status _ _ =>
      if status == 401 && truthyStr st.auth.refreshToken then
        match hook with
        | Except.ok newToken =>
          let st2 := { st with
            auth := { st.auth with bearerToken := newToken },
            refreshCalls := st.refreshCalls + 1 }
          let req3 := { req2 with
            headers := setH req2.headers "Authorization" ("Bearer " ++ newToken) }
          axiosCallTs cfg hook req3 st2 rest
        | Except.error e =>
          (Except.error e, { st with refreshCalls := st.refreshCalls + 1 }, rest)
      else
        (Except.error (outcomeAxiosError o), st, rest)
    | CallOutcome.networkError _ =>
      (Except.error (outcomeAxiosError o), st, rest)

/-- The TS retry loop: identical control flow to the JS one, except that
exhausting the while-guard throws `Error("Max retry attempts reached")`
instead of resolving `undefined`. -/
def requestLoopTs (cfg : WrapperConfig) (hook : Except AxiosError String)
    (req : ReqConfig) :
    PState → List CallOutcome → Nat →
    Except AxiosError TsReturn × PState × List CallOutcome
  | st, trace, 0 =>
    (Except.error { message := "Max retry attempts reached", response := none },
     st, trace)
  | st, trace, k + 1 =>
    match axiosCallTs cfg hook req st trace with
    | (Except.ok r, st2, rest) => (Except.ok (TsReturn.response r), st2, rest)
    | (Except.error e, st2, rest) =>
      if k = 0 then (Except.error e, st2, rest)
      else requestLoopTs cfg hook req st2 rest k

/-- Embedding of the TS `request(method, endpoint, options)`: no method
defaulting; a truthy cached value is returned directly (as a bare value,
not a response object), otherwise the retry loop runs. -/
def requestTs (cfg : WrapperConfig) (hook : Except AxiosError String)
    (method endpoint : String) (opts : ReqOptions)
    (st : PState) (trace : List CallOutcome) :
    Except AxiosError TsReturn × PState × List CallOutcome :=
  let cacheKey := getCacheKey method endpoint opts.params opts.data
  let run := fun () =>
    requestLoopTs cfg hook
      { method := method, url := endpoint, params := opts.params,
        data := opts.data, headers := opts.headers }
      st trace cfg.retryAttempts
  if cfg.cacheEnabled then
    let cachedData := cacheGet st.cache cacheKey st.now
    if jsTruthy cachedData then (Except.ok (TsReturn.cachedValue cachedData), st, trace)
    else run ()
  else run ()

/-- Embedding of the TS facade method `get(endpoint, params = {})`. -/
def getTs (cfg : WrapperConfig) (hook : Except AxiosError String)
    (endpoint : String) (params : JValue)
    (st : PState) (trace : List CallOutcome) :
    Except AxiosError TsReturn × PState × List CallOutcome :=
  requestTs cfg hook "GET" endpoint { params := params } st trace

/-- Whether a transport outcome makes the JS interceptor chain reject
without entering the refresh path, given the truthiness `rt` of the
configured refresh token: every network error does, and every HTTP error
except a 401 while a refresh token is configured. -/
def isTerminalFailure (rt : Bool) : CallOutcome → Bool
  | CallOutcome.success _ _ => false
  | CallOutcome.httpError status _ _ => !(status == 401 && rt)
  | CallOutcome.networkError _ => true

/-- The error the JS interceptor chain rejects with for a terminally
failing outcome. -/
def outcomeError : CallOutcome → JsErr
  | CallOutcome.success _ _ => JsErr.raw ""
  | CallOutcome.httpError status data errMessage =>
    normalizeHttpError status data errMessage
  | CallOutcome.networkError errMessage => JsErr.raw errMessage


/-- The state after a successful JS `handleResponse` for a request
config: the parsed body is stored under the submitted config's cache key
for `cacheDuration` ms when caching is enabled, and nothing else
changes. -/
def successState (cfg : WrapperConfig) (req : ReqConfig) (st : PState)
    (d : JValue) : PState :=
  if cfg.cacheEnabled then
    { st with cache := cachePut st.cache (getCacheKey req.method req.url req.params req.data) (parseResponse d) (st.now + cfg.cacheDuration) }
  else st

/-- The state right after a successful `refreshTokenAndRetry` hook call:
the new token is stored into `config.auth.bearerToken` (and the ghost
refresh counter ticks once). -/
def refreshedState (st : PState) (tok : String) : PState :=
  { st with auth := { st.auth with bearerToken := tok }, refreshCalls := st.refreshCalls + 1 }

/-- The failed request's config as `refreshTokenAndRetry` resubmits it:
the same method, url, params and body, with the `Authorization` header
rewritten to the fresh bearer token on top of the headers the request
interceptor had installed. -/
def rewrittenConfig (st : PState) (req : ReqConfig) (tok : String) : ReqConfig :=
  { req with headers := setH (getAuthHeaders st.auth req.headers) "Authorization" ("Bearer " ++ tok) }

theorem getH_setH_same (hs : List (String × String)) (k v : String) :
    getH (setH hs k v) k = some v := by
  induction hs with
  | nil => simp [setH, getH]
  | cons p rest ih =>
    by_cases h : p.1 = k
    · simp [setH, getH, h]
    · simpa [setH, getH, List.find?, h] using ih

theorem getH_setH_other (hs : List (String × String)) (k v k2 : String)
    (hne : k2 ≠ k) : getH (setH hs k v) k2 = getH hs k2 := by
  have hkk : (k == k2) = false := beq_eq_false_iff_ne.mpr (Ne.symm hne)
  induction hs with
  | nil => simp [setH, getH, List.find?, hkk]
  | cons p rest ih =>
    by_cases h : p.1 = k
    · have hp2 : (p.1 == k2) = false := by
        rw [h]; exact hkk
      simp [setH, getH, List.find?, h, hp2, hkk]
    · by_cases h2 : p.1 = k2
      · simp [setH, getH, List.find?, h, h2, hne]
      · have hp2 : (p.1 == k2) = false := beq_eq_false_iff_ne.mpr h2
        simpa [setH, getH, List.find?, h, hp2] using ih

theorem axiosCall_success (cfg : WrapperConfig) (hook : Except JsErr String)
    (req : ReqConfig) (st : PState) (status : Nat) (d : JValue)
    (rest : List CallOutcome) :
    axiosCall cfg hook req st (CallOutcome.success status d :: rest) =
      (Except.ok (parseResponse d), successState cfg req st d, rest) := by
  simp [axiosCall, successState]

theorem axiosCall_terminal (cfg : WrapperConfig) (hook : Except JsErr String)
    (req : ReqConfig) (st : PState) (o : CallOutcome) (rest : List CallOutcome)
    (h : isTerminalFailure (truthyStr st.auth.refreshToken) o = true) :
    axiosCall cfg hook req st (o :: rest) =
      (Except.error (outcomeError o), st, rest) := by
  cases o with
  | success status d => simp [isTerminalFailure] at h
  | httpError status data msg =>
    cases hx : status == 401 && truthyStr st.auth.refreshToken with
    | true => simp [isTerminalFailure, hx] at h
    | false =>
      simp only [axiosCall]
      rw [hx]
      simp [outcomeError]
  | networkError msg => simp [axiosCall, outcomeError]

theorem requestLoop_allFail (cfg : WrapperConfig) (hook : Except JsErr String)
    (req : ReqConfig) (init : List CallOutcome) (last : CallOutcome)
    (rest : List CallOutcome) (st : PState)
    (h : ∀ o ∈ init ++ [last],
      isTerminalFailure (truthyStr st.auth.refreshToken) o = true) :
    requestLoop cfg hook req st (init ++ last :: rest) (init.length + 1) =
      (Except.error (outcomeError last), st, rest) := by
  induction init with
  | nil =>
    have hl := h last (by simp)
    simp [requestLoop, axiosCall_terminal cfg hook req st last rest hl]
  | cons o init2 ih =>
    have ho := h o (by simp)
    have hrest : ∀ x ∈ init2 ++ [last],
        isTerminalFailure (truthyStr st.auth.refreshToken) x = true := by
      intro x hx
      exact h x (by simp at hx ⊢; tauto)
    simp only [List.cons_append, List.length_cons]
    rw [show init2.length + 1 + 1 = (init2.length + 1) + 1 from rfl]
    simp only [requestLoop,
      axiosCall_terminal cfg hook req st o (init2 ++ last :: rest) ho]
    simp only [Nat.add_one_ne_zero, if_false]
    exact ih hrest

theorem requestLoop_eventualSuccess (cfg : WrapperConfig)
    (hook : Except JsErr String) (req : ReqConfig) :
    ∀ (init : List CallOutcome) (k : Nat) (status : Nat) (d : JValue)
      (rest : List CallOutcome) (st : PState),
    init.length < k →
    (∀ o ∈ init, isTerminalFailure (truthyStr st.auth.refreshToken) o = true) →
    requestLoop cfg hook req st (init ++ CallOutcome.success status d :: rest) k =
      (Except.ok (parseResponse d), successState cfg req st d, rest) := by
  intro init
  induction init with
  | nil =>
    intro k status d rest st hk _
    obtain ⟨k0, rfl⟩ := Nat.exists_eq_succ_of_ne_zero (Nat.pos_iff_ne_zero.mp hk)
    simp [requestLoop, axiosCall_success]
  | cons o init2 ih =>
    intro k status d rest st hk h
    have ho := h o (by simp)
    have hrest : ∀ x ∈ init2,
        isTerminalFailure (truthyStr st.auth.refreshToken) x = true := by
      intro x hx
      exact h x (by simp [hx])
    obtain ⟨k0, rfl⟩ := Nat.exists_eq_succ_of_ne_zero
      (Nat.pos_iff_ne_zero.mp (Nat.lt_of_le_of_lt (Nat.zero_le _) hk))
    have hk0 : init2.length < k0 := by
      simpa [Nat.succ_lt_succ_iff] using hk
    have hk0ne : ¬ k0 = 0 := by omega
    simp only [List.cons_append]
    simp only [requestLoop,
      axiosCall_terminal cfg hook req st o
        (init2 ++ CallOutcome.success status d :: rest) ho]
    simp only [hk0ne, if_false]
    exact ih k0 status d rest st hk0 hrest

theorem axiosCall_remaining_le (cfg : WrapperConfig) (hook : Except JsErr String) :
    ∀ (tr : List CallOutcome) (req : ReqConfig) (st : PState),
    ((axiosCall cfg hook req st tr).2.2).length ≤ tr.length := by
  intro tr
  induction tr with
  | nil => intro req st; simp [axiosCall]
  | cons o rest ih =>
    intro req st
    cases o with
    | success s d => simp [axiosCall]
    | httpError s d m =>
      simp only [axiosCall]
      by_cases hb : (s == 401 && truthyStr st.auth.refreshToken) = true
      · rw [if_pos hb]
        cases hook with
        | ok tok =>
          exact Nat.le_succ_of_le (ih _ _)
        | error e => simp
      · rw [if_neg hb]
        simp
    | networkError m => simp [axiosCall]

theorem axiosCall_cons_le (cfg : WrapperConfig) (hook : Except JsErr String)
    (o : CallOutcome) (rest : List CallOutcome) (req : ReqConfig) (st : PState) :
    ((axiosCall cfg hook req st (o :: rest)).2.2).length ≤ rest.length := by
  cases o with
  | success s d => simp [axiosCall]
  | httpError s d m =>
    simp only [axiosCall]
    by_cases hb : (s == 401 && truthyStr st.auth.refreshToken) = true
    · rw [if_pos hb]
      cases hook with
      | ok tok => exact axiosCall_remaining_le cfg (Except.ok tok) rest _ _
      | error e => simp
    · rw [if_neg hb]
  | networkError m => simp [axiosCall]

theorem requestLoop_remaining_le (cfg : WrapperConfig)
    (hook : Except JsErr String) (req : ReqConfig) :
    ∀ (k : Nat) (st : PState) (tr : List CallOutcome),
    ((requestLoop cfg hook req st tr k).2.2).length ≤ tr.length := by
  intro k
  induction k with
  | zero => intro st tr; simp [requestLoop]
  | succ k0 ih =>
    intro st tr
    have hle := axiosCall_remaining_le cfg hook tr req st
    simp only [requestLoop]
    rcases hx : axiosCall cfg hook req st tr with ⟨res, st2, rest⟩
    rw [hx] at hle
    simp only at hle
    cases res with
    | ok v => simpa using hle
    | error e =>
      by_cases hk : k0 = 0
      · simpa [hk] using hle
      · simp only [hk, if_false]
        exact Nat.le_trans (ih st2 rest) hle

theorem requestLoop_consumes (cfg : WrapperConfig) (hook : Except JsErr String)
    (req : ReqConfig) (k0 : Nat) (st : PState) (o : CallOutcome)
    (rest : List CallOutcome) :
    ((requestLoop cfg hook req st (o :: rest) (k0 + 1)).2.2).length ≤ rest.length := by
  have hcons := axiosCall_cons_le cfg hook o rest req st
  simp only [requestLoop]
  rcases hx : axiosCall cfg hook req st (o :: rest) with ⟨res, st2, rest2⟩
  rw [hx] at hcons
  simp only at hcons
  cases res with
  | ok v => simpa using hcons
  | error e =>
    by_cases hk : k0 = 0
    · simpa [hk] using hcons
    · simp only [hk, if_false]
      exact Nat.le_trans (requestLoop_remaining_le cfg hook req k0 st2 rest2) hcons

theorem request_cacheMiss (cfg : WrapperConfig) (hook : Except JsErr String)
    (method endpoint : String) (opts : ReqOptions) (st : PState)
    (trace : List CallOutcome)
    (h : cfg.cacheEnabled = true →
      jsTruthy (cacheGet st.cache (requestKey method endpoint opts) st.now) = false) :
    request cfg hook method endpoint opts st trace =
      requestLoop cfg hook
        { method := effectiveMethod method opts, url := endpoint,
          params := opts.params, data := opts.data, headers := opts.headers }
        st trace cfg.retryAttempts := by
  by_cases hc : cfg.cacheEnabled
  · simp [request, hc, h hc]
  · simp [request, hc]

/-- C2, as stated, is false: `getCacheKey` serializes params with
`JSON.stringify`, which emits object keys in insertion order, so the two
params objects holding the same key-value content `a=1, b=2` in the two
possible insertion orders produce two different cache-key strings. -/
theorem claim_C2_cex :
    getCacheKey "GET" "/u"
      (JValue.obj [("a", JValue.num 1), ("b", JValue.num 2)]) JValue.undef ≠
    getCacheKey "GET" "/u"
      (JValue.obj [("b", JValue.num 2), ("a", JValue.num 1)]) JValue.undef := by
  decide

/-- C2 (amended): the cache key is a pure function of the method, the
endpoint and the JSON serializations of params and body, so two calls
whose params and body serialize identically — in particular, identical
content in the same key insertion order, regardless of object identity —
always produce the same key; content in a different insertion order is
not covered (see the counterexample). -/
theorem claim_C2 (m e : String) (p1 p2 b1 b2 : JValue)
    (hp : stringifyJ (orEmptyObj p1) = stringifyJ (orEmptyObj p2))
    (hb : stringifyJ (orEmptyObj b1) = stringifyJ (orEmptyObj b2)) :
    getCacheKey m e p1 b1 = getCacheKey m e p2 b2 := by
  simp [getCacheKey, hp, hb]

/-- Witness for C2 at a concrete input: absent params and an explicit
empty params object serialize alike and give the same key. -/
theorem claim_C2_witness :
    getCacheKey "GET" "/u" JValue.undef JValue.undef =
      getCacheKey "GET" "/u" (JValue.obj []) (JValue.obj []) :=
  claim_C2 "GET" "/u" JValue.undef (JValue.obj []) JValue.undef (JValue.obj [])
    rfl rfl

/-- C3, as stated, is false: with caching enabled and a live cache entry
whose stored value is the falsy empty string, `request` does not return
the cached value — the truthiness test `if (cachedData)` treats the
entry as a miss, the transport outcome is consumed (a transport call is
made) and its parsed body is returned. -/
theorem claim_C3_cex :
    (request { cacheEnabled := true, retryAttempts := 3 } getNewAccessToken
        "GET" "/e" { params := JValue.obj [] }
        { auth := {},
          cache := [{ key := "GET-/e-\x7b\x7d-\x7b\x7d", value := JValue.str "", expireAt := 500 }],
          now := 0 }
        [CallOutcome.success 200 (JValue.num 7)]).1 = Except.ok (JValue.num 7) ∧
    (request { cacheEnabled := true, retryAttempts := 3 } getNewAccessToken
        "GET" "/e" { params := JValue.obj [] }
        { auth := {},
          cache := [{ key := "GET-/e-\x7b\x7d-\x7b\x7d", value := JValue.str "", expireAt := 500 }],
          now := 0 }
        [CallOutcome.success 200 (JValue.num 7)]).2.2 = [] ∧
    cacheGet [{ key := "GET-/e-\x7b\x7d-\x7b\x7d", value := JValue.str "", expireAt := 500 }]
      (requestKey "GET" "/e" { params := JValue.obj [] }) 0 = JValue.str "" := by
  exact ⟨rfl, rfl, rfl⟩

/-- C3 (amended): for every request with caching enabled whose live
cache entry holds a truthy value, `request` returns that cached value
immediately, with the state untouched (so no auth refresh) and the
transport trace untouched (so no transport call and no retry). -/
theorem claim_C3 (cfg : WrapperConfig) (hook : Except JsErr String)
    (method endpoint : String) (opts : ReqOptions) (st : PState)
    (trace : List CallOutcome)
    (hc : cfg.cacheEnabled = true)
    (hv : jsTruthy (cacheGet st.cache (requestKey method endpoint opts) st.now) = true) :
    request cfg hook method endpoint opts st trace =
      (Except.ok (cacheGet st.cache (requestKey method endpoint opts) st.now),
       st, trace) := by
  simp [request, hc, hv]

/-- Witness for C3 at a concrete input: a live truthy entry is served
from cache with no transport outcome consumed. -/
theorem claim_C3_witness :
    request { cacheEnabled := true, retryAttempts := 3 } getNewAccessToken
        "GET" "/e" { params := JValue.obj [] }
        { auth := {},
          cache := [{ key := "GET-/e-\x7b\x7d-\x7b\x7d", value := JValue.num 5, expireAt := 500 }],
          now := 0 }
        [CallOutcome.success 200 (JValue.num 7)] =
      (Except.ok (JValue.num 5),
       { auth := {},
         cache := [{ key := "GET-/e-\x7b\x7d-\x7b\x7d", value := JValue.num 5, expireAt := 500 }],
         now := 0 },
       [CallOutcome.success 200 (JValue.num 7)]) := by
  rw [claim_C3 { cacheEnabled := true, retryAttempts := 3 } getNewAccessToken
    "GET" "/e" { params := JValue.obj [] }
    { auth := {},
      cache := [{ key := "GET-/e-\x7b\x7d-\x7b\x7d", value := JValue.num 5, expireAt := 500 }],
      now := 0 }
    [CallOutcome.success 200 (JValue.num 7)] rfl rfl]
  rfl

/-- C8: `parseResponse` is a total function (the `JSON.parse` failure is
caught): a string input is JSON-decoded, with the raw string returned
unchanged when the decode fails, and every non-string input is returned
as-is. -/
theorem claim_C8 :
    (∀ s : String,
      parseResponse (JValue.str s) = (jsonParse s).getD (JValue.str s)) ∧
    (∀ v : JValue, isString v = false → parseResponse v = v) := by
  constructor
  · intro s; rfl
  · intro v hv
    cases v with
    | str s => simp [isString] at hv
    | undef => rfl
    | null => rfl
    | bool b => rfl
    | num n => rfl
    | arr xs => rfl
    | obj fs => rfl

/-- Witness for C8 at concrete inputs: a non-string passes through
unchanged, a decodable string is decoded, and a non-JSON string is
returned raw. -/
theorem claim_C8_witness :
    parseResponse (JValue.num 3) = JValue.num 3 ∧
    parseResponse (JValue.str "[1,2]") = JValue.arr [JValue.num 1, JValue.num 2] ∧
    parseResponse (JValue.str "not json") = JValue.str "not json" := by
  refine ⟨claim_C8.2 (JValue.num 3) rfl, ?_, ?_⟩
  · rw [claim_C8.1 "[1,2]"]; rfl
  · rw [claim_C8.1 "not json"]; rfl

/-- C9: `connectWebSocket` wires `onMessage` so that every incoming
payload goes through `parseResponse` before delivery; in particular the
text frame holding the JSON object source with field a = 1 is delivered
as the parsed object, not as the raw string. -/
theorem claim_C9 {A : Type} (options : WebSocketOptions A) (f : JValue → A)
    (h : options.onMessage = some f) :
    (∀ data, connectWebSocketHandler options (WsEvent.message data) =
      some (f (parseResponse data))) ∧
    connectWebSocketHandler options
        (WsEvent.message (JValue.str "\x7b\"a\":1\x7d")) =
      some (f (JValue.obj [("a", JValue.num 1)])) := by
  constructor
  · intro data; simp [connectWebSocketHandler, h]
  · simp only [connectWebSocketHandler, h, Option.map_some]
    rfl

/-- Witness for C9 with the identity callback: the scenario frame is
delivered parsed. -/
theorem claim_C9_witness :
    connectWebSocketHandler
        { onMessage := some (fun v => v) : WebSocketOptions JValue }
        (WsEvent.message (JValue.str "\x7b\"a\":1\x7d")) =
      some (JValue.obj [("a", JValue.num 1)]) :=
  (claim_C9 { onMessage := some (fun v => v) } (fun v => v) rfl).2

/-- C7: `getAuthHeaders` returns the input headers merged with, in
order, `X-API-Key` when an apiKey is configured, `Authorization: Bearer`
when a bearer token is configured, and `Authorization: Basic
base64(username:password)` when basic credentials are configured — so
with both bearer and basic configured the Basic value overwrites the
Bearer value (last writer wins); every other header key is passed
through untouched. -/
theorem claim_C7 (auth : Auth) (existing : List (String × String)) :
    (∀ b, auth.basicAuth = some b →
      getH (getAuthHeaders auth existing) "Authorization" =
        some ("Basic " ++ base64 (b.username ++ ":" ++ b.password))) ∧
    (auth.basicAuth = none → truthyStr auth.bearerToken = true →
      getH (getAuthHeaders auth existing) "Authorization" =
        some ("Bearer " ++ auth.bearerToken)) ∧
    (truthyStr auth.apiKey = true →
      getH (getAuthHeaders auth existing) "X-API-Key" = some auth.apiKey) ∧
    (∀ k, k ≠ "Authorization" → k ≠ "X-API-Key" →
      getH (getAuthHeaders auth existing) k = getH existing k) := by
  have hxa : ("X-API-Key" : String) ≠ "Authorization" := by decide
  refine ⟨?_, ?_, ?_, ?_⟩
  · intro b hb
    simp only [getAuthHeaders, hb]
    exact getH_setH_same _ _ _
  · intro hb ht
    simp only [getAuthHeaders, hb, ht, if_true]
    exact getH_setH_same _ _ _
  · intro hk
    simp only [getAuthHeaders, hk, if_true]
    cases hb : auth.basicAuth with
    | some b =>
      rw [getH_setH_other _ _ _ _ hxa]
      by_cases ht : truthyStr auth.bearerToken = true
      · simp only [ht, if_true]
        rw [getH_setH_other _ _ _ _ hxa]
        exact getH_setH_same _ _ _
      · have ht2 : truthyStr auth.bearerToken = false := by
          revert ht; cases truthyStr auth.bearerToken <;> simp
        simp only [ht2, Bool.false_eq_true, if_false]
        exact getH_setH_same _ _ _
    | none =>
      by_cases ht : truthyStr auth.bearerToken = true
      · simp only [ht, if_true]
        rw [getH_setH_other _ _ _ _ hxa]
        exact getH_setH_same _ _ _
      · have ht2 : truthyStr auth.bearerToken = false := by
          revert ht; cases truthyStr auth.bearerToken <;> simp
        simp only [ht2, Bool.false_eq_true, if_false]
        exact getH_setH_same _ _ _
  · intro k hka hkx
    simp only [getAuthHeaders]
    cases hb : auth.basicAuth with
    | some b =>
      rw [getH_setH_other _ _ _ _ hka]
      by_cases ht : truthyStr auth.bearerToken = true
      · simp only [ht, if_true]
        rw [getH_setH_other _ _ _ _ hka]
        by_cases hk : truthyStr auth.apiKey = true
        · simp only [hk, if_true]
          exact getH_setH_other _ _ _ _ hkx
        · have hk2 : truthyStr auth.apiKey = false := by
            revert hk; cases truthyStr auth.apiKey <;> simp
          simp [hk2]
      · have ht2 : truthyStr auth.bearerToken = false := by
          revert ht; cases truthyStr auth.bearerToken <;> simp
        simp only [ht2, Bool.false_eq_true, if_false]
        by_cases hk : truthyStr auth.apiKey = true
        · simp only [hk, if_true]
          exact getH_setH_other _ _ _ _ hkx
        · have hk2 : truthyStr auth.apiKey = false := by
            revert hk; cases truthyStr auth.apiKey <;> simp
          simp [hk2]
    | none =>
      by_cases ht : truthyStr auth.bearerToken = true
      · simp only [ht, if_true]
        rw [getH_setH_other _ _ _ _ hka]
        by_cases hk : truthyStr auth.apiKey = true
        · simp only [hk, if_true]
          exact getH_setH_other _ _ _ _ hkx
        · have hk2 : truthyStr auth.apiKey = false := by
            revert hk; cases truthyStr auth.apiKey <;> simp
          simp [hk2]
      · have ht2 : truthyStr auth.bearerToken = false := by
          revert ht; cases truthyStr auth.bearerToken <;> simp
        simp only [ht2, Bool.false_eq_true, if_false]
        by_cases hk : truthyStr auth.apiKey = true
        · simp only [hk, if_true]
          exact getH_setH_other _ _ _ _ hkx
        · have hk2 : truthyStr auth.apiKey = false := by
            revert hk; cases truthyStr auth.apiKey <;> simp
          simp [hk2]

/-- Witness for C7 at a concrete input: with all three schemes
configured, the Basic value wins the `Authorization` header, the API key
lands in `X-API-Key`, and an unrelated existing header passes through. -/
theorem claim_C7_witness :
    getH (getAuthHeaders
        { apiKey := "k", bearerToken := "t",
          basicAuth := some { username := "user", password := "pass" } }
        [("Accept", "json")]) "Authorization" = some "Basic dXNlcjpwYXNz" ∧
    getH (getAuthHeaders
        { apiKey := "k", bearerToken := "t",
          basicAuth := some { username := "user", password := "pass" } }
        [("Accept", "json")]) "X-API-Key" = some "k" ∧
    getH (getAuthHeaders
        { apiKey := "k", bearerToken := "t",
          basicAuth := some { username := "user", password := "pass" } }
        [("Accept", "json")]) "Accept" = some "json" := by
  have h := claim_C7
    { apiKey := "k", bearerToken := "t",
      basicAuth := some { username := "user", password := "pass" } }
    [("Accept", "json")]
  refine ⟨?_, ?_, ?_⟩
  · rw [h.1 { username := "user", password := "pass" } rfl]
    rfl
  · exact h.2.2.1 rfl
  · exact h.2.2.2 "Accept" (by decide) (by decide)

/-- C10 (implicit behaviour): with caching enabled, a live cache entry
whose stored value is falsy is treated as a miss — `request` behaves
exactly as the no-hit transport path, and when the retry budget is
nonzero and a transport outcome is available, a transport outcome is
actually consumed (a fresh transport call happens) despite the live
entry. -/
theorem claim_C10 (cfg : WrapperConfig) (hook : Except JsErr String)
    (method endpoint : String) (opts : ReqOptions) (st : PState)
    (trace : List CallOutcome) (entry : CacheEntry)
    (_hc : cfg.cacheEnabled = true)
    (hfind : st.cache.find? (fun e => e.key == requestKey method endpoint opts) =
      some entry)
    (hlive : st.now < entry.expireAt)
    (hfalsy : jsTruthy entry.value = false) :
    request cfg hook method endpoint opts st trace =
      requestLoop cfg hook
        { method := effectiveMethod method opts, url := endpoint,
          params := opts.params, data := opts.data, headers := opts.headers }
        st trace cfg.retryAttempts ∧
    (cfg.retryAttempts ≠ 0 → trace ≠ [] →
      ((request cfg hook method endpoint opts st trace).2.2).length < trace.length) := by
  have hmiss : jsTruthy (cacheGet st.cache (requestKey method endpoint opts) st.now) = false := by
    simp only [cacheGet, hfind]
    rw [if_pos hlive]
    exact hfalsy
  have hreq := request_cacheMiss cfg hook method endpoint opts st trace (fun _ => hmiss)
  refine ⟨hreq, ?_⟩
  intro hk htr
  obtain ⟨k0, hk0⟩ := Nat.exists_eq_succ_of_ne_zero hk
  cases trace with
  | nil => exact absurd rfl htr
  | cons o rest =>
    rw [hreq, hk0]
    exact Nat.lt_of_le_of_lt
      (requestLoop_consumes cfg hook _ k0 st o rest) (by simp)

/-- Witness for C10 at a concrete input: a live entry holding `false` is
ignored and the single available transport outcome is consumed. -/
theorem claim_C10_witness :
    ((request { cacheEnabled := true, retryAttempts := 3 } getNewAccessToken
        "GET" "/w" { params := JValue.obj [] }
        { auth := {},
          cache := [{ key := "GET-/w-\x7b\x7d-\x7b\x7d", value := JValue.bool false, expireAt := 900 }],
          now := 0 }
        [CallOutcome.success 200 (JValue.num 9)]).2.2).length <
      List.length [CallOutcome.success 200 (JValue.num 9)] :=
  (claim_C10 { cacheEnabled := true, retryAttempts := 3 } getNewAccessToken
    "GET" "/w" { params := JValue.obj [] }
    { auth := {},
      cache := [{ key := "GET-/w-\x7b\x7d-\x7b\x7d", value := JValue.bool false, expireAt := 900 }],
      now := 0 }
    [CallOutcome.success 200 (JValue.num 9)]
    { key := "GET-/w-\x7b\x7d-\x7b\x7d", value := JValue.bool false, expireAt := 900 }
    rfl rfl (by decide) rfl).2 (by decide) (by simp)

/-- C4: with the effective retry budget N = `retryAttempts` (N ≥ 1, as
the constructor guarantees) and the cache not hitting: a transport that
fails terminally on every attempt is submitted exactly N times — the
whole N-outcome trace is consumed, nothing further — and the N-th
failure is surfaced to the caller with the state untouched; a transport
that fails N-1 times and then succeeds resolves with the parsed success
body (caching it when enabled). -/
theorem claim_C4 (cfg : WrapperConfig) (hook : Except JsErr String)
    (method endpoint : String) (opts : ReqOptions) (st : PState) :
    (∀ (init : List CallOutcome) (last : CallOutcome),
      cfg.retryAttempts = init.length + 1 →
      (cfg.cacheEnabled = true →
        jsTruthy (cacheGet st.cache (requestKey method endpoint opts) st.now) = false) →
      (∀ o ∈ init ++ [last],
        isTerminalFailure (truthyStr st.auth.refreshToken) o = true) →
      request cfg hook method endpoint opts st (init ++ [last]) =
        (Except.error (outcomeError last), st, [])) ∧
    (∀ (init : List CallOutcome) (status : Nat) (d : JValue),
      cfg.retryAttempts = init.length + 1 →
      (cfg.cacheEnabled = true →
        jsTruthy (cacheGet st.cache (requestKey method endpoint opts) st.now) = false) →
      (∀ o ∈ init, isTerminalFailure (truthyStr st.auth.refreshToken) o = true) →
      request cfg hook method endpoint opts st
          (init ++ [CallOutcome.success status d]) =
        (Except.ok (parseResponse d),
         successState cfg
           { method := effectiveMethod method opts, url := endpoint,
             params := opts.params, data := opts.data, headers := opts.headers }
           st d,
         [])) := by
  constructor
  · intro init last hN hmiss hterm
    rw [request_cacheMiss cfg hook method endpoint opts st (init ++ [last]) hmiss, hN]
    exact requestLoop_allFail cfg hook
      { method := effectiveMethod method opts, url := endpoint,
        params := opts.params, data := opts.data, headers := opts.headers }
      init last [] st hterm
  · intro init status d hN hmiss hterm
    rw [request_cacheMiss cfg hook method endpoint opts st _ hmiss, hN]
    exact requestLoop_eventualSuccess cfg hook
      { method := effectiveMethod method opts, url := endpoint,
        params := opts.params, data := opts.data, headers := opts.headers }
      init (init.length + 1) status d [] st (Nat.lt_succ_self _) hterm

/-- Witness for C4 at concrete inputs with N = 3: three straight network
failures consume all three outcomes and surface the third error; two
failures followed by a success resolve with the parsed body. -/
theorem claim_C4_witness :
    request { retryAttempts := 3 } getNewAccessToken "GET" "/e" {} { auth := {} }
        [CallOutcome.networkError "e1", CallOutcome.networkError "e2",
         CallOutcome.networkError "e3"] =
      (Except.error (JsErr.raw "e3"), { auth := {} }, []) ∧
    (request { retryAttempts := 3 } getNewAccessToken "GET" "/e" {} { auth := {} }
        [CallOutcome.networkError "e1", CallOutcome.networkError "e2",
         CallOutcome.success 200 (JValue.num 7)]).1 = Except.ok (JValue.num 7) := by
  have h := claim_C4 { retryAttempts := 3 } getNewAccessToken "GET" "/e" {}
    { auth := {} }
  constructor
  · exact h.1 [CallOutcome.networkError "e1", CallOutcome.networkError "e2"]
      (CallOutcome.networkError "e3") rfl (fun hc => by simp at hc) (by decide)
  · rw [show [CallOutcome.networkError "e1", CallOutcome.networkError "e2",
        CallOutcome.success 200 (JValue.num 7)] =
        [CallOutcome.networkError "e1", CallOutcome.networkError "e2"] ++
          [CallOutcome.success 200 (JValue.num 7)] from rfl,
      h.2 [CallOutcome.networkError "e1", CallOutcome.networkError "e2"] 200
        (JValue.num 7) rfl (fun hc => by simp at hc) (by decide)]
    rfl

/-- C5: for a transport failure carrying HTTP 401 while a refresh token
is configured, the interceptor chain invokes the refresh hook exactly
once, stores the new token into `auth.bearerToken`, rewrites the
`Authorization` header on the failed request's config, and resubmits
that exact config exactly once (one recursive submission on the
remaining outcomes); a hook failure propagates as-is from this
submission with nothing resubmitted and is never retried inside the
refresh path.  The resubmission does not consume a `retryAttempts`
slot: even with a budget of a single attempt, a 401 followed by a
success resolves successfully, with the refresh counter up by exactly
one (the success interception itself never touches the counter or the
auth bundle). -/
theorem claim_C5 (cfg : WrapperConfig) (hook : Except JsErr String)
    (req : ReqConfig) (st : PState) (d : JValue) (m : String)
    (rest : List CallOutcome)
    (hrt : truthyStr st.auth.refreshToken = true) :
    (∀ tok, hook = Except.ok tok →
      axiosCall cfg hook req st (CallOutcome.httpError 401 d m :: rest) =
        axiosCall cfg hook (rewrittenConfig st req tok) (refreshedState st tok) rest) ∧
    (∀ e, hook = Except.error e →
      axiosCall cfg hook req st (CallOutcome.httpError 401 d m :: rest) =
        (Except.error e, { st with refreshCalls := st.refreshCalls + 1 }, rest)) ∧
    (∀ (method endpoint : String) (opts : ReqOptions) (status : Nat)
       (d2 : JValue) (tok : String),
      hook = Except.ok tok →
      cfg.retryAttempts = 1 →
      (cfg.cacheEnabled = true →
        jsTruthy (cacheGet st.cache (requestKey method endpoint opts) st.now) = false) →
      request cfg hook method endpoint opts st
          [CallOutcome.httpError 401 d m, CallOutcome.success status d2] =
        (Except.ok (parseResponse d2),
         successState cfg
           (rewrittenConfig st
             { method := effectiveMethod method opts, url := endpoint,
               params := opts.params, data := opts.data, headers := opts.headers }
             tok)
           (refreshedState st tok) d2,
         [])) ∧
    (∀ (req2 : ReqConfig) (st2 : PState) (d3 : JValue),
      (successState cfg req2 st2 d3).refreshCalls = st2.refreshCalls ∧
      (successState cfg req2 st2 d3).auth = st2.auth) := by
  have hstep : ∀ (tok : String) (req3 : ReqConfig) (tr : List CallOutcome),
      axiosCall cfg (Except.ok tok) req3 st (CallOutcome.httpError 401 d m :: tr) =
        axiosCall cfg (Except.ok tok) (rewrittenConfig st req3 tok)
          (refreshedState st tok) tr := by
    intro tok req3 tr
    simp only [axiosCall, hrt, Bool.and_true, beq_self_eq_true, if_true]
    rfl
  refine ⟨?_, ?_, ?_, ?_⟩
  · intro tok htok
    subst htok
    exact hstep tok req rest
  · intro e htok
    subst htok
    simp only [axiosCall, hrt, Bool.and_true, beq_self_eq_true, if_true]
  · intro method endpoint opts status d2 tok htok hN hmiss
    subst htok
    rw [request_cacheMiss cfg (Except.ok tok) method endpoint opts st _ hmiss, hN]
    simp only [requestLoop]
    rw [hstep tok _ [CallOutcome.success status d2], axiosCall_success]
  · intro req2 st2 d3
    by_cases hc : cfg.cacheEnabled <;> simp [successState, hc]

/-- Witness for C5 at a concrete input: with a retry budget of one, a
401 followed by a success still resolves with the parsed success body,
with exactly one refresh-hook call recorded and the fresh token stored
in the auth bundle. -/
theorem claim_C5_witness :
    (request { retryAttempts := 1 } (Except.ok "new-access-token") "GET" "/e" {}
        { auth := { refreshToken := "r" } }
        [CallOutcome.httpError 401 (JValue.obj []) "unauthorized",
         CallOutcome.success 200 (JValue.num 7)]).1 = Except.ok (JValue.num 7) ∧
    (request { retryAttempts := 1 } (Except.ok "new-access-token") "GET" "/e" {}
        { auth := { refreshToken := "r" } }
        [CallOutcome.httpError 401 (JValue.obj []) "unauthorized",
         CallOutcome.success 200 (JValue.num 7)]).2.1.refreshCalls = 1 ∧
    (request { retryAttempts := 1 } (Except.ok "new-access-token") "GET" "/e" {}
        { auth := { refreshToken := "r" } }
        [CallOutcome.httpError 401 (JValue.obj []) "unauthorized",
         CallOutcome.success 200 (JValue.num 7)]).2.1.auth.bearerToken =
      "new-access-token" := by
  have h := claim_C5 { retryAttempts := 1 } (Except.ok "new-access-token")
    { method := "GET", url := "/e" } { auth := { refreshToken := "r" } }
    (JValue.obj []) "unauthorized" [] rfl
  have h3 := h.2.2.1 "GET" "/e" {} 200 (JValue.num 7) "new-access-token" rfl rfl
    (fun hc => by simp at hc)
  have h4 := h.2.2.2
  refine ⟨?_, ?_, ?_⟩
  · rw [h3]
    rfl
  · rw [h3]
    simp only [(h4 _ _ _).1]
    rfl
  · rw [h3]
    simp only [(h4 _ _ _).2]
    rfl

/-- C6, as stated, is false for the TS pipeline (src/app.ts): at a
concrete 404 with an empty-object body, its `handleError` rethrows the
raw axios error unchanged — still carrying the attached HTTP response —
instead of surfacing a normalized `(status, message, data)` object.
The repo's own test asserts exactly this raw message surfacing. -/
theorem claim_C6_cex :
    axiosCallTs {} getNewAccessTokenTs { method := "GET", url := "/x" }
        { auth := {} }
        [CallOutcome.httpError 404 (JValue.obj [])
          "Request failed with status code 404"] =
      (Except.error
        { message := "Request failed with status code 404",
          response := some { status := 404, data := JValue.obj [] } },
       { auth := {} }, []) := rfl

/-- C6 (amended): in the JS pipeline (unnamed/part_000), a transport
error carrying an HTTP response outside the 401-refresh case is surfaced
as the normalized object `(status, message, data)`, where the message is
the response body's `message` field when that field is truthy and the
generic error message otherwise, provided the body is not null or
undefined (reading `.message` off those throws a TypeError instead); an
error without an HTTP response is rethrown unchanged.  The TS pipeline
(src/app.ts) performs no such normalization: it rethrows every
non-401-refresh error raw. -/
theorem claim_C6 (cfg : WrapperConfig) (hook : Except JsErr String)
    (hookTs : Except AxiosError String) (req : ReqConfig) (st : PState)
    (rest : List CallOutcome) :
    (∀ (status : Nat) (respData : JValue) (msg : String),
      (status == 401 && truthyStr st.auth.refreshToken) = false →
      respData ≠ JValue.null → respData ≠ JValue.undef →
      axiosCall cfg hook req st (CallOutcome.httpError status respData msg :: rest) =
        (Except.error (JsErr.normalized status
          (if jsTruthy (getField respData "message") then getField respData "message"
           else JValue.str msg) respData), st, rest)) ∧
    (∀ msg : String,
      axiosCall cfg hook req st (CallOutcome.networkError msg :: rest) =
        (Except.error (JsErr.raw msg), st, rest)) ∧
    (∀ (status : Nat) (respData : JValue) (msg : String),
      (status == 401 && truthyStr st.auth.refreshToken) = false →
      axiosCallTs cfg hookTs req st
          (CallOutcome.httpError status respData msg :: rest) =
        (Except.error
          { message := msg, response := some { status := status, data := respData } },
         st, rest)) := by
  refine ⟨?_, ?_, ?_⟩
  · intro status respData msg hb hn hu
    simp only [axiosCall]
    rw [hb]
    simp only [Bool.false_eq_true, if_false]
    cases respData with
    | null => exact absurd rfl hn
    | undef => exact absurd rfl hu
    | bool b => simp [normalizeHttpError]
    | num n => simp [normalizeHttpError]
    | str s => simp [normalizeHttpError]
    | arr xs => simp [normalizeHttpError]
    | obj fs => simp [normalizeHttpError]
  · intro msg
    simp [axiosCall]
  · intro status respData msg hb
    simp only [axiosCallTs]
    rw [hb]
    simp [outcomeAxiosError]

/-- Witness for C6 at concrete inputs: the JS pipeline normalizes a 404
whose body carries a truthy message field, takes the generic message
when the body has none, and passes a network error through raw. -/
theorem claim_C6_witness :
    axiosCall {} getNewAccessToken { method := "GET", url := "/x" } { auth := {} }
        [CallOutcome.httpError 404 (JValue.obj [("message", JValue.str "boom")])
          "generic"] =
      (Except.error (JsErr.normalized 404 (JValue.str "boom")
        (JValue.obj [("message", JValue.str "boom")])), { auth := {} }, []) ∧
    axiosCall {} getNewAccessToken { method := "GET", url := "/x" } { auth := {} }
        [CallOutcome.httpError 500 (JValue.obj []) "generic"] =
      (Except.error (JsErr.normalized 500 (JValue.str "generic") (JValue.obj [])),
       { auth := {} }, []) ∧
    axiosCall {} getNewAccessToken { method := "GET", url := "/x" } { auth := {} }
        [CallOutcome.networkError "ECONNRESET"] =
      (Except.error (JsErr.raw "ECONNRESET"), { auth := {} }, []) := by
  have h := claim_C6 {} getNewAccessToken getNewAccessTokenTs
    { method := "GET", url := "/x" } { auth := {} } []
  refine ⟨?_, ?_, ?_⟩
  · rw [h.1 404 (JValue.obj [("message", JValue.str "boom")]) "generic" rfl
      (by simp) (by simp)]
    rfl
  · rw [h.1 500 (JValue.obj []) "generic" rfl (by simp) (by simp)]
    rfl
  · exact h.2.1 "ECONNRESET"

/-- C1 is a divergence between the two shipped implementations, with the
TS one (src/app.ts) internally inconsistent: on the scenario
`get("/posts/1")` against a transport success carrying the object with
id 1 and title x, the JS pipeline (unnamed/part_000) resolves with the
parsed body itself and stores that parsed value under the request's
cache key for the configured duration, so a second identical call is
served from cache with no transport outcome needed — exactly as the
claim states; the TS pipeline stores the same parsed value in the cache
but resolves the fresh call with the full response wrapper, so its fresh
call and its cache hit resolve with different shapes and the claim's
"returns the parsed value itself, not a wrapper" is false there. -/
theorem claim_C1 :
    (get { cacheEnabled := true, retryAttempts := 3 } getNewAccessToken
        "/posts/1" (JValue.obj []) { auth := {} }
        [CallOutcome.success 200
          (JValue.obj [("id", JValue.num 1), ("title", JValue.str "x")])]).1 =
      Except.ok (JValue.obj [("id", JValue.num 1), ("title", JValue.str "x")]) ∧
    (get { cacheEnabled := true, retryAttempts := 3 } getNewAccessToken
        "/posts/1" (JValue.obj []) { auth := {} }
        [CallOutcome.success 200
          (JValue.obj [("id", JValue.num 1), ("title", JValue.str "x")])]).2.1.cache =
      [{ key := "GET-/posts/1-\x7b\x7d-\x7b\x7d",
         value := JValue.obj [("id", JValue.num 1), ("title", JValue.str "x")],
         expireAt := 300000 }] ∧
    (get { cacheEnabled := true, retryAttempts := 3 } getNewAccessToken
        "/posts/1" (JValue.obj [])
        { auth := {},
          cache := [{ key := "GET-/posts/1-\x7b\x7d-\x7b\x7d",
                      value := JValue.obj [("id", JValue.num 1), ("title", JValue.str "x")],
                      expireAt := 300000 }],
          now := 0 }
        []).1 =
      Except.ok (JValue.obj [("id", JValue.num 1), ("title", JValue.str "x")]) ∧
    (getTs { cacheEnabled := true, retryAttempts := 3 } getNewAccessTokenTs
        "/posts/1" (JValue.obj []) { auth := {} }
        [CallOutcome.success 200
          (JValue.obj [("id", JValue.num 1), ("title", JValue.str "x")])]).1 =
      Except.ok (TsReturn.response
        { status := 200,
          data := JValue.obj [("id", JValue.num 1), ("title", JValue.str "x")] }) ∧
    (getTs { cacheEnabled := true, retryAttempts := 3 } getNewAccessTokenTs
        "/posts/1" (JValue.obj [])
        { auth := {},
          cache := [{ key := "GET-/posts/1-\x7b\x7d-\x7b\x7d",
                      value := JValue.obj [("id", JValue.num 1), ("title", JValue.str "x")],
                      expireAt := 300000 }],
          now := 0 }
        []).1 =
      Except.ok (TsReturn.cachedValue
        (JValue.obj [("id", JValue.num 1), ("title", JValue.str "x")])) := by
  exact ⟨rfl, rfl, rfl, rfl, rfl⟩
